import Mathlib

/-!
Shallow embedding of the `Multi_isotope` enrichment calculator from
`misoenrichment/calculator.py` (repository miso_enrichment).

Numeric modelling conventions:
* Python/numpy floats are modelled as real numbers; quantities that can hold
  IEEE special values (`np.inf`, `float("nan")`) are modelled by the four-way
  type `ExtR` below, whose arithmetic follows the IEEE-754 conventions used by
  numpy (`inf * 0 = nan`, `inf - inf = nan`, comparisons with `nan` are false).
* Division of plain reals follows Mathlib's convention `x / 0 = 0`; every
  theorem that depends on a denominator carries the corresponding
  non-vanishing hypothesis.
-/

open scoped Classical

noncomputable section

namespace Miso

/-- Exception kinds raised by the Python code (`ValueError`, `KeyError`,
`RuntimeError`). -/
inductive Err where
  | valueError
  | keyError
  | runtimeError
deriving DecidableEq

/-- IEEE-754-style extended real: a finite value, `+inf`, `-inf` or `nan`.
Used for the quantities of the calculator that the Python code sets to
`np.inf` or `float("nan")`. -/
inductive ExtR where
  | fin (x : ℝ)
  | inf
  | neginf
  | nan

namespace ExtR

/-- The float comparison `v == np.inf`. -/
def isInf : ExtR → Bool
  | .inf => true
  | _ => false

/-- Coercion to a plain real, junk value 0 on non-finite input; used to model
reading a float field at program points where it is known to be finite. -/
def toReal : ExtR → ℝ
  | .fin x => x
  | _ => 0

/-- IEEE addition. -/
def add : ExtR → ExtR → ExtR
  | nan, _ => nan
  | _, nan => nan
  | fin x, fin y => fin (x + y)
  | fin _, inf => inf
  | fin _, neginf => neginf
  | inf, fin _ => inf
  | inf, inf => inf
  | inf, neginf => nan
  | neginf, fin _ => neginf
  | neginf, inf => nan
  | neginf, neginf => neginf

/-- IEEE subtraction. -/
def sub : ExtR → ExtR → ExtR
  | nan, _ => nan
  | _, nan => nan
  | fin x, fin y => fin (x - y)
  | fin _, inf => neginf
  | fin _, neginf => inf
  | inf, fin _ => inf
  | inf, inf => nan
  | inf, neginf => inf
  | neginf, fin _ => neginf
  | neginf, inf => neginf
  | neginf, neginf => nan

/-- IEEE multiplication (`0 * inf = nan`). -/
def mul : ExtR → ExtR → ExtR
  | nan, _ => nan
  | _, nan => nan
  | fin x, fin y => fin (x * y)
  | fin x, inf => if 0 < x then inf else if x < 0 then neginf else nan
  | fin x, neginf => if 0 < x then neginf else if x < 0 then inf else nan
  | inf, fin y => if 0 < y then inf else if y < 0 then neginf else nan
  | neginf, fin y => if 0 < y then neginf else if y < 0 then inf else nan
  | inf, inf => inf
  | inf, neginf => neginf
  | neginf, inf => neginf
  | neginf, neginf => inf

/-- IEEE division (`x / 0` with `x > 0` is `inf`, `0 / 0 = nan`,
`inf / inf = nan`). -/
def div : ExtR → ExtR → ExtR
  | nan, _ => nan
  | _, nan => nan
  | fin x, fin y =>
      if y = 0 then (if 0 < x then inf else if x < 0 then neginf else nan)
      else fin (x / y)
  | fin _, inf => fin 0
  | fin _, neginf => fin 0
  | inf, fin y => if 0 ≤ y then inf else neginf
  | neginf, fin y => if 0 ≤ y then neginf else inf
  | inf, inf => nan
  | inf, neginf => nan
  | neginf, inf => nan
  | neginf, neginf => nan

/-- IEEE strict comparison; every comparison involving `nan` is false. -/
def lt : ExtR → ExtR → Prop
  | nan, _ => False
  | _, nan => False
  | fin x, fin y => x < y
  | fin _, inf => True
  | fin _, neginf => False
  | inf, _ => False
  | neginf, neginf => False
  | neginf, _ => True

/-- IEEE non-strict comparison; every comparison involving `nan` is false. -/
def le : ExtR → ExtR → Prop
  | nan, _ => False
  | _, nan => False
  | fin x, fin y => x ≤ y
  | fin _, inf => True
  | fin _, neginf => False
  | inf, inf => True
  | inf, _ => False
  | neginf, _ => True

instance : Add ExtR := ⟨add⟩
instance : Sub ExtR := ⟨sub⟩
instance : Mul ExtR := ⟨mul⟩
instance : Div ExtR := ⟨div⟩

@[simp] theorem fin_add_fin (x y : ℝ) : fin x + fin y = fin (x + y) := rfl

@[simp] theorem fin_sub_fin (x y : ℝ) : fin x - fin y = fin (x - y) := rfl

@[simp] theorem fin_mul_fin (x y : ℝ) : fin x * fin y = fin (x * y) := rfl

theorem fin_div_fin (x : ℝ) {y : ℝ} (h : y ≠ 0) : fin x / fin y = fin (x / y) := by
  show div (fin x) (fin y) = fin (x / y)
  simp [div, h]

@[simp] theorem toReal_fin (x : ℝ) : toReal (fin x) = x := rfl

@[simp] theorem isInf_inf : isInf inf = true := rfl

@[simp] theorem isInf_fin (x : ℝ) : isInf (fin x) = false := rfl

@[simp] theorem isInf_nan : isInf nan = false := rfl

@[simp] theorem isInf_neginf : isInf neginf = false := rfl

theorem isInf_eq_true_iff : ∀ {a : ExtR}, isInf a = true ↔ a = inf := by
  intro a
  cases a <;> simp [isInf]

@[simp] theorem fin_lt_inf (x : ℝ) : lt (fin x) inf := trivial

@[simp] theorem fin_lt_fin {x y : ℝ} : lt (fin x) (fin y) ↔ x < y := Iff.rfl

@[simp] theorem not_inf_lt (b : ExtR) : ¬ lt inf b := by
  cases b <;> simp [lt]

@[simp] theorem not_lt_nan (a : ExtR) : ¬ lt a nan := by
  cases a <;> simp [lt]

@[simp] theorem fin_le_fin {x y : ℝ} : le (fin x) (fin y) ↔ x ≤ y := Iff.rfl

@[simp] theorem not_inf_le_fin (x : ℝ) : ¬ le inf (fin x) := by
  simp [le]

end ExtR

/-- Module constant `MSTAR = 350.5` (cascade key weight reference mass). -/
def MSTAR : ℝ := 350.5

/-- Module constant `MASS_HEXAFLUORIDE = 6 * 19`. -/
def MASS_HEXAFLUORIDE : ℝ := 6 * 19

/-- The `i`-th allowed nuclide identifier, in the order of the module constant
`ALLOWED_NUCLIDES`. -/
def allowedNuclide : Fin 6 → String :=
  !["922320000", "922330000", "922340000", "922350000", "922360000", "922380000"]

/-- Module constant `ALLOWED_NUCLIDES` as a list. -/
def ALLOWED_NUCLIDES : List String := List.ofFn allowedNuclide

/-- Module constant `ISOTOPES`: hexafluoride molecular masses
`np.array([232, 233, 234, 235, 236, 238]) + MASS_HEXAFLUORIDE`. -/
def ISOTOPES : Fin 6 → ℝ :=
  fun i => ![(232 : ℝ), 233, 234, 235, 236, 238] i + MASS_HEXAFLUORIDE

/-- The mutable fields of a `Multi_isotope` object. -/
structure MisoState where
  xf : Fin 6 → ℝ
  xp : Fin 6 → ℝ
  xt : Fin 6 → ℝ
  user_xp : ℝ
  user_xt : ℝ
  process : String
  mstar : ℝ
  alpha : Fin 6 → ℝ
  alpha_star : Fin 6 → ℝ
  user_f : ExtR
  user_p : ExtR
  user_swu : ExtR
  f : ExtR
  p : ExtR
  t : ExtR
  swu : ExtR
  n_e : ExtR
  n_s : ExtR
  uptodate : Bool
  maximal_enrichment : ExtR

/-- Input of `set_feed_composition`: either a numpy vector (modelled as a list,
so that the shape check is meaningful) or a dict (modelled as an association
list; Python dict keys are unique, lookup takes the first match). -/
inductive FeedComp where
  | vec (v : List ℝ)
  | map (m : List (String × ℝ))

/-- Dict lookup `composition[nuclide]` on the association-list model. -/
def lookupNuclide (m : List (String × ℝ)) (k : String) : Option ℝ :=
  (m.find? (fun q => q.1 == k)).map (fun q => q.2)

/-- The feed vector after the assignment loop of `set_feed_composition`
(dict input): entries present in the dict are overwritten, the others keep
their previous value. -/
def mergedFeed (s : MisoState) (m : List (String × ℝ)) : Fin 6 → ℝ := fun i =>
  match lookupNuclide m (allowedNuclide i) with
  | some val => val
  | none => s.xf i

/-- `Multi_isotope.set_feed_composition`. -/
def set_feed_composition (s : MisoState) (composition : FeedComp) :
    Except Err MisoState :=
  match composition with
  | .vec v =>
      if v.length ≠ ALLOWED_NUCLIDES.length then .error .valueError
      else if (∃ x ∈ v, x < 0) ∨ (∃ x ∈ v, 1 ≤ x) then .error .valueError
      else .ok { s with uptodate := false,
                        xf := fun i => v.getD i.val 0 / v.sum }
  | .map m =>
      if m.any (fun q => !(ALLOWED_NUCLIDES.contains q.1)) then .error .keyError
      else if !(m.any (fun q => q.1 == "922350000")) then .error .valueError
      else if ∃ i : Fin 6, ∃ val,
          lookupNuclide m (allowedNuclide i) = some val ∧ (val < 0 ∨ 1 ≤ val) then
        .error .valueError
      else
        .ok { s with uptodate := false,
                     xf := fun i => mergedFeed s m i / ∑ j, mergedFeed s m j }

/-- `Multi_isotope.set_product_enrichment`. -/
def set_product_enrichment (s : MisoState) (xp : ℝ) : Except Err MisoState :=
  if xp < 0 ∨ xp > 1 ∨ xp ≤ s.xf 3 then .error .valueError
  else .ok { s with user_xp := xp, uptodate := false }

/-- `Multi_isotope.set_tails_enrichment`. -/
def set_tails_enrichment (s : MisoState) (xt : ℝ) : Except Err MisoState :=
  if xt < 0 ∨ xt > 1 then .error .valueError
  else if xt ≥ s.xf 3 ∧ (∃ i, s.xf i ≠ 0) then .error .valueError
  else .ok { s with uptodate := false, user_xt := xt }

/-- `Multi_isotope.set_enrichment_process`. -/
def set_enrichment_process (s : MisoState) (process : String) :
    Except Err MisoState :=
  if process = "centrifuge" ∨ process = "diffusion" then
    .ok { s with uptodate := false, process := process }
  else .error .valueError

/-- `Multi_isotope.set_alpha`: the two `if` statements of the source are
sequential, so an unrecognized process leaves `alpha` unchanged; `alpha_star`
is recomputed unconditionally. -/
def set_alpha (s : MisoState) (alpha_235 : ℝ) : MisoState :=
  let a1 : Fin 6 → ℝ :=
    if s.process = "centrifuge" then
      fun i => 1 + (2 * s.mstar - ISOTOPES 3 - ISOTOPES i) * (alpha_235 - 1) / 3
    else s.alpha
  let a2 : Fin 6 → ℝ :=
    if s.process = "diffusion" then
      fun i => ((2 * s.mstar - ISOTOPES 3) / ISOTOPES i) ^ (0.5 : ℝ)
    else a1
  { s with alpha := a2, alpha_star := fun i => a2 i / a2 3 ^ (0.5 : ℝ) }

/-- `Multi_isotope.check_input` (bound validation run at construction). -/
def check_input (feed_qty product_qty max_swu : ExtR) : Except Err Unit :=
  if ExtR.lt (.fin 1e298) max_swu ∧ ExtR.lt (.fin 1e298) feed_qty ∧
      ExtR.lt (.fin 1e298) product_qty then
    .error .valueError
  else if ExtR.le max_swu (.fin 0) then .error .valueError
  else .ok ()

/-- `Multi_isotope.value_function`, with `k[i] = (alpha[i]-1)/(alpha[3]-1)`.
The source raises `RuntimeError` when some `k[i] == 0.5`; that guard is
modelled by the separate side condition `value_function_guard`. -/
def value_function (s : MisoState) (x : Fin 6 → ℝ) : ℝ :=
  (∑ i, x i / (2 * ((s.alpha i - 1) / (s.alpha 3 - 1)) - 1)) *
    Real.log (x 3 / x 5)

/-- The `np.any(k == 0.5)` guard of `value_function` does not fire. -/
def value_function_guard (s : MisoState) : Prop :=
  ∀ i, (s.alpha i - 1) / (s.alpha 3 - 1) ≠ 1 / 2

/-- `Multi_isotope.get_swu`. The Python guard is
`np.inf in {self.p, self.t} and self.f == np.inf`, a disjunction on the
output side. -/
def get_swu (s : MisoState) : ExtR :=
  if (s.p.isInf || s.t.isInf) && s.f.isInf then ExtR.inf
  else
    ExtR.fin (value_function s s.xp) * s.p + ExtR.fin (value_function s s.xt) * s.t -
      ExtR.fin (value_function s s.xf) * s.f

/-- `Multi_isotope.difference_concentration`. -/
def difference_concentration (s : MisoState) : ℝ :=
  ((((s.xp 3 - s.user_xp) / s.user_xp) ^ 2 +
    ((s.xt 3 - s.user_xt) / s.user_xt) ^ 2) : ℝ) ^ (0.5 : ℝ)

/-- Per-isotope coefficient `e` of `calculate_concentrations`:
`1.0 / alpha_star / (1 - alpha_star ** (-n_e))`. -/
def concE (s : MisoState) (n_e : ℝ) : Fin 6 → ℝ := fun i =>
  1 / s.alpha_star i / (1 - s.alpha_star i ^ (-n_e))

/-- Per-isotope coefficient `s` of `calculate_concentrations`:
`1.0 / alpha_star / (alpha_star ** (n_s + 1) - 1)`. -/
def concS (s : MisoState) (n_s : ℝ) : Fin 6 → ℝ := fun i =>
  1 / s.alpha_star i / (s.alpha_star i ^ (n_s + 1) - 1)

/-- `Multi_isotope.calculate_concentrations`: the optional tuple argument
defaults to the stored stage counts (`self.n_e`/`self.n_s`, finite at every
call site that omits the argument); returns the updated state together with
the returned deviation. -/
def calculate_concentrations (s : MisoState) (n_stages : Option ℝ × Option ℝ) :
    MisoState × ℝ :=
  let n_e := match n_stages.1 with | none => s.n_e.toReal | some v => v
  let n_s := match n_stages.2 with | none => s.n_s.toReal | some v => v
  let e := concE s n_e
  let sc := concS s n_s
  let e_sum := ∑ i, e i * s.xf i / (e i + sc i)
  let s_sum := ∑ i, sc i * s.xf i / (e i + sc i)
  let s2 := { s with xp := fun i => e i * s.xf i / ((e i + sc i) * e_sum),
                     xt := fun i => sc i * s.xf i / ((e i + sc i) * s_sum) }
  (s2, difference_concentration s2)

/-- Per-isotope coefficient `e` of `calculate_flows`:
`alpha_star ** (-1) / (1 - alpha_star ** (-self.n_e))`. -/
def flowE (s : MisoState) : Fin 6 → ℝ := fun i =>
  s.alpha_star i ^ (-1 : ℝ) / (1 - s.alpha_star i ^ (-s.n_e.toReal))

/-- Per-isotope coefficient `s` of `calculate_flows`:
`alpha_star ** (-1) / (alpha_star ** (self.n_s + 1) - 1)`. -/
def flowS (s : MisoState) : Fin 6 → ℝ := fun i =>
  s.alpha_star i ^ (-1 : ℝ) / (s.alpha_star i ^ (s.n_s.toReal + 1) - 1)

/-- The flow-solver ratio `e_sum = (e * xf / (e + s)).sum()`. -/
def flowESum (s : MisoState) : ℝ :=
  ∑ i, flowE s i * s.xf i / (flowE s i + flowS s i)

/-- The flow-solver ratio `s_sum = (s * xf / (e + s)).sum()`. -/
def flowSSum (s : MisoState) : ℝ :=
  ∑ i, flowS s i * s.xf i / (flowE s i + flowS s i)

/-- First part of `calculate_flows`: select the binding branch between the
feed bound (`p = user_f * e_sum` tentative) and the product bound
(`f = user_p / e_sum` tentative), then set `t = f * s_sum`. -/
def flowsPhase1 (s : MisoState) : MisoState :=
  let s1 :=
    if ExtR.lt (s.user_f * ExtR.fin (flowESum s)) s.user_p then
      { s with p := s.user_f * ExtR.fin (flowESum s), f := s.user_f }
    else
      { s with f := s.user_p / ExtR.fin (flowESum s), p := s.user_p }
  { s1 with t := s1.f * ExtR.fin (flowSSum s) }

/-- Denominator of the SWU-capped re-derivation of `f` in `calculate_flows`
(`value_function` depends only on `alpha` and its argument, which the flow
solver does not modify, so it is evaluated on `s`). -/
def flowDenom (s : MisoState) : ℝ :=
  value_function s s.xp * flowESum s + value_function s s.xt * flowSSum s -
    value_function s s.xf

/-- `Multi_isotope.calculate_flows`. -/
def calculate_flows (s : MisoState) : MisoState :=
  let s3 := { flowsPhase1 s with swu := get_swu (flowsPhase1 s) }
  if ExtR.lt s3.user_swu s3.swu then
    { s3 with swu := s3.user_swu,
              f := s3.user_swu / ExtR.fin (flowDenom s),
              p := (s3.user_swu / ExtR.fin (flowDenom s)) * ExtR.fin (flowESum s),
              t := (s3.user_swu / ExtR.fin (flowDenom s)) * ExtR.fin (flowSSum s) }
  else s3

/-- Result record of one `scipy.optimize.minimize` call: the returned point
`x`, the point at which the objective closure was last evaluated (the
optimizer mutates `self.xp`/`self.xt` through its objective evaluations; the
net state effect is that of the last evaluation), the `success` flag and the
termination `message`. -/
structure MinimizeOut where
  x1 : ℝ
  x2 : ℝ
  lastEval1 : ℝ
  lastEval2 : ℝ
  success : Bool
  message : String

/-- A deterministic model of `scipy.optimize.minimize`: a function of the
session state at call time (which determines the objective closure), of
whether box bounds were supplied, and of the initial point `x0`. -/
def Minimizer : Type := MisoState → Bool → ℝ × ℝ → MinimizeOut

/-- The check `"NORM_OF_PROJECTED_GRADIENT" in result["message"]`. -/
def msgHasProjGradient (msg : String) : Bool :=
  (msg.splitOn ("NORM_OF_PROJECTED_GRADIENT")).length != 1

/-- Outcome of `_calculate_staging` (as invoked by `calculate_enrichment`,
i.e. with `return_OptimizeResult=False`): the cached early return, a
successful return of the stage counts, or one of the raised errors
(`RuntimeError` infeasible, `RuntimeError` optimizer failure, `ValueError`
unknown process). -/
inductive StagingOutcome where
  | cached (ne ns : ExtR)
  | converged (ne ns : ℝ)
  | infeasible
  | optimizerFailure
  | invalidProcess

/-- One iteration of the initial-guess loop of `_calculate_staging`, acting
on the state threaded through the loop; `none` as second component means the
loop continues with the next guess. -/
def stagingTrial (minimize : Minimizer) (upper_bound : ℝ) (g : ℝ × ℝ)
    (s : MisoState) : MisoState × Option StagingOutcome :=
  let result := minimize s true g
  let s1 := (calculate_concentrations s (some result.lastEval1, some result.lastEval2)).1
  let delta := difference_concentration s1
  let s2 := { s1 with n_e := .fin result.x1, n_s := .fin result.x2 }
  let s3 := (calculate_concentrations s2 (none, none)).1
  let s4 := calculate_flows s3
  if result.success = true ∧ delta < 1e-7 then
    let s5 := { s4 with uptodate := true }
    if msgHasProjGradient result.message = true ∨ 0.9 * upper_bound < result.x1 then
      let result2 := minimize s5 false (10 * upper_bound, g.2)
      let s6 := (calculate_concentrations s5
        (some result2.lastEval1, some result2.lastEval2)).1
      let s7 := (calculate_concentrations s6 (some result2.x1, some result2.x2)).1
      let s8 := calculate_flows s7
      ({ s8 with maximal_enrichment := .fin (s8.xp 3),
                 n_e := .nan, n_s := .fin result2.x2 }, some .infeasible)
    else (s5, some (.converged result.x1 result.x2))
  else (s4, none)

/-- The initial-guess loop of `_calculate_staging`; exhausting the grid raises
the optimizer-failure `RuntimeError`. -/
def stagingSearch (minimize : Minimizer) (upper_bound : ℝ) :
    List (ℝ × ℝ) → MisoState → MisoState × StagingOutcome
  | [], s => (s, .optimizerFailure)
  | g :: rest, s =>
      match stagingTrial minimize upper_bound g s with
      | (s', some out) => (s', out)
      | (s', none) => stagingSearch minimize upper_bound rest s'

/-- The grid of initial guesses `(n_enriching, n_stripping)`, outer loop over
`n_init_stripping`, inner loop over `n_init_enriching`. -/
def stagingGrid (n_init_stripping n_init_enriching : List ℝ) : List (ℝ × ℝ) :=
  (n_init_stripping.map (fun ns => n_init_enriching.map (fun ne => (ne, ns)))).flatten

/-- `Multi_isotope._calculate_staging` for the `return_OptimizeResult=False`
path used by `calculate_enrichment`. -/
def calculate_staging (minimize : Minimizer) (s : MisoState) :
    MisoState × StagingOutcome :=
  if s.uptodate = true then (s, .cached s.n_e s.n_s)
  else if s.process = "diffusion" then
    stagingSearch minimize 7000 (stagingGrid [100, 500, 1000, 5000] [500, 1000, 5000]) s
  else if s.process = "centrifuge" then
    stagingSearch minimize 200 (stagingGrid [1, 5, 10, 50] [5, 10, 50]) s
  else (s, .invalidProcess)

/-- `Multi_isotope.calculate_enrichment`. -/
def calculate_enrichment (minimize : Minimizer) (s : MisoState) :
    MisoState × StagingOutcome :=
  calculate_staging minimize s

/-! Frame lemmas: which fields each operation leaves untouched. -/

@[simp] theorem calculate_concentrations_uptodate (s : MisoState)
    (a : Option ℝ × Option ℝ) :
    ((calculate_concentrations s a).1).uptodate = s.uptodate := rfl

@[simp] theorem calculate_concentrations_n_e (s : MisoState)
    (a : Option ℝ × Option ℝ) :
    ((calculate_concentrations s a).1).n_e = s.n_e := rfl

@[simp] theorem calculate_concentrations_n_s (s : MisoState)
    (a : Option ℝ × Option ℝ) :
    ((calculate_concentrations s a).1).n_s = s.n_s := rfl

@[simp] theorem flowsPhase1_uptodate (s : MisoState) :
    (flowsPhase1 s).uptodate = s.uptodate := by
  unfold flowsPhase1
  split <;> rfl

@[simp] theorem flowsPhase1_user_swu (s : MisoState) :
    (flowsPhase1 s).user_swu = s.user_swu := by
  unfold flowsPhase1
  split <;> rfl

@[simp] theorem calculate_flows_uptodate (s : MisoState) :
    (calculate_flows s).uptodate = s.uptodate := by
  unfold calculate_flows
  dsimp only
  split <;> simp

/-! Theorems about the embedded calculator. -/

/-- A concrete session state with uniform separation factors
`alpha_star = 2`, uniform feed, and one finite bound (feed); with stage
counts `n_e = 1`, `n_s = 0` the cascade reproduces the feed in both outlet
streams, which makes the solver formulas evaluate in closed form. -/
def witnessState : MisoState where
  xf := fun _ => 1 / 6
  xp := fun _ => 1 / 6
  xt := fun _ => 1 / 6
  user_xp := 1 / 6
  user_xt := 1 / 6
  process := "centrifuge"
  mstar := 350.5
  alpha := fun _ => 2
  alpha_star := fun _ => 2
  user_f := .fin 1000
  user_p := .inf
  user_swu := .inf
  f := .fin 0
  p := .fin 0
  t := .fin 0
  swu := .fin 0
  n_e := .fin 1
  n_s := .fin 0
  uptodate := false
  maximal_enrichment := .nan

/-- C2: for separation factors `alpha_star` all positive and none equal to 1
and stage counts `n_e > 0`, `n_s ≥ 0`, `calculate_concentrations(n_e, n_s)`
computes `e[i] = 1/(alpha_star[i]·(1 − alpha_star[i]^(−n_e)))` and
`s[i] = 1/(alpha_star[i]·(alpha_star[i]^(n_s+1) − 1))`, sets
`xp[i] = e[i]·xf[i]/((e[i]+s[i])·Σ_j e[j]·xf[j]/(e[j]+s[j]))` and the
symmetric expression for `xt` using `s`, returns
`sqrt(((xp[3]−user_xp)/user_xp)² + ((xt[3]−user_xt)/user_xt)²)`, and leaves
the stored `n_e` and `n_s` fields unchanged. -/
theorem calculate_concentrations_spec (s : MisoState) (ne ns : ℝ)
    (h1 : ∀ i, 0 < s.alpha_star i) (h2 : ∀ i, s.alpha_star i ≠ 1)
    (h3 : 0 < ne) (h4 : 0 ≤ ns) :
    let e : Fin 6 → ℝ := fun i => 1 / (s.alpha_star i * (1 - s.alpha_star i ^ (-ne)))
    let sc : Fin 6 → ℝ := fun i => 1 / (s.alpha_star i * (s.alpha_star i ^ (ns + 1) - 1))
    let res := calculate_concentrations s (some ne, some ns)
    (∀ i, res.1.xp i =
      e i * s.xf i / ((e i + sc i) * ∑ j, e j * s.xf j / (e j + sc j))) ∧
    (∀ i, res.1.xt i =
      sc i * s.xf i / ((e i + sc i) * ∑ j, sc j * s.xf j / (e j + sc j))) ∧
    res.2 = Real.sqrt (((res.1.xp 3 - s.user_xp) / s.user_xp) ^ 2 +
      ((res.1.xt 3 - s.user_xt) / s.user_xt) ^ 2) ∧
    res.1.n_e = s.n_e ∧ res.1.n_s = s.n_s := by
  intro e sc res
  have he : ∀ i, concE s ne i = e i := by
    intro i
    show 1 / s.alpha_star i / (1 - s.alpha_star i ^ (-ne)) = _
    rw [div_div]
  have hs : ∀ i, concS s ns i = sc i := by
    intro i
    show 1 / s.alpha_star i / (s.alpha_star i ^ (ns + 1) - 1) = _
    rw [div_div]
  have hxp : res.1.xp = fun i => concE s ne i * s.xf i /
      ((concE s ne i + concS s ns i) *
        ∑ j, concE s ne j * s.xf j / (concE s ne j + concS s ns j)) := rfl
  have hxt : res.1.xt = fun i => concS s ns i * s.xf i /
      ((concE s ne i + concS s ns i) *
        ∑ j, concS s ns j * s.xf j / (concE s ne j + concS s ns j)) := rfl
  refine ⟨?_, ?_, ?_, rfl, rfl⟩
  · intro i
    rw [hxp]
    simp only [he, hs]
  · intro i
    rw [hxt]
    simp only [he, hs]
  · have hd : res.2 = (((res.1.xp 3 - s.user_xp) / s.user_xp) ^ 2 +
        ((res.1.xt 3 - s.user_xt) / s.user_xt) ^ 2) ^ (0.5 : ℝ) := rfl
    rw [hd, show (0.5 : ℝ) = 1 / 2 by norm_num, ← Real.sqrt_eq_rpow]

/-- Witness for C2 at the concrete session `witnessState` with
`n_e = 1`, `n_s = 0`. -/
theorem calculate_concentrations_spec_witness :
    (∀ i, 0 < witnessState.alpha_star i) ∧
    (∀ i, witnessState.alpha_star i ≠ 1) ∧
    ((calculate_concentrations witnessState (some 1, some 0)).1.n_e = witnessState.n_e ∧
      (calculate_concentrations witnessState (some 1, some 0)).1.n_s = witnessState.n_s) := by
  refine ⟨fun i => by norm_num [witnessState], fun i => by norm_num [witnessState], ?_⟩
  exact (calculate_concentrations_spec witnessState 1 0
    (fun i => by norm_num [witnessState]) (fun i => by norm_num [witnessState])
    one_pos le_rfl).2.2.2

/-- A session state whose product quantity is `inf`, tails quantity is the
finite value 0 and feed quantity is `inf`: the `get_swu` guard fires although
only one of the two output-side quantities is unbounded. -/
def swuGuardState : MisoState :=
  { witnessState with p := .inf, t := .fin 0, f := .inf }

/-- C4 counterexample: `get_swu` returns `inf` on a state whose tails
quantity `t` is finite, so "returns ∞ exactly when both `p` and `t` are ∞
and `f` is ∞" fails — the code's guard is a disjunction over `p`, `t`. -/
theorem get_swu_counterexample :
    get_swu swuGuardState = ExtR.inf ∧ swuGuardState.t ≠ ExtR.inf := by
  constructor
  · rfl
  · intro h
    exact ExtR.noConfusion h

/-- C4 amended: `get_swu` returns ∞ exactly through the guard
`(p = ∞ ∨ t = ∞) ∧ f = ∞` (at least one output-side quantity unbounded and
the feed unbounded); in every other case it returns
`V(xp)·p + V(xt)·t − V(xf)·f` in IEEE arithmetic. -/
theorem get_swu_spec (s : MisoState) :
    ((s.p = ExtR.inf ∨ s.t = ExtR.inf) ∧ s.f = ExtR.inf →
      get_swu s = ExtR.inf) ∧
    (¬ ((s.p = ExtR.inf ∨ s.t = ExtR.inf) ∧ s.f = ExtR.inf) →
      get_swu s =
        ExtR.fin (value_function s s.xp) * s.p +
          ExtR.fin (value_function s s.xt) * s.t -
          ExtR.fin (value_function s s.xf) * s.f) := by
  have hcond : (((s.p.isInf || s.t.isInf) && s.f.isInf) = true) ↔
      ((s.p = ExtR.inf ∨ s.t = ExtR.inf) ∧ s.f = ExtR.inf) := by
    simp [Bool.and_eq_true, Bool.or_eq_true, ExtR.isInf_eq_true_iff]
  constructor
  · intro h
    unfold get_swu
    rw [if_pos (hcond.mpr h)]
  · intro h
    unfold get_swu
    rw [if_neg (fun hc => h (hcond.mp hc))]

/-- Witness for C4 (amended) at the concrete state `swuGuardState`. -/
theorem get_swu_spec_witness : get_swu swuGuardState = ExtR.inf :=
  (get_swu_spec swuGuardState).1 ⟨Or.inl rfl, rfl⟩

/-- A session state holding a natural-uranium feed vector
(U-235 fraction 0.00711, U-238 fraction 0.99289). -/
def natFeedState : MisoState :=
  { witnessState with
      xf := ![(0 : ℝ), 0, 0, 711 / 100000, 0, 99289 / 100000] }

/-- C5 counterexample: `set_product_enrichment(1)` succeeds on a
natural-uranium feed although 1 is outside the open range (0,1) — the code
only rejects `xp > 1`, so the endpoint is accepted and "succeeds exactly when
x is in (0,1)" fails. -/
theorem set_product_enrichment_counterexample :
    (∃ s', set_product_enrichment natFeedState 1 = .ok s') ∧ ¬ ((1 : ℝ) < 1) := by
  constructor
  · unfold set_product_enrichment
    rw [if_neg]
    · exact ⟨_, rfl⟩
    · push_neg
      refine ⟨by norm_num, by norm_num, ?_⟩
      show (711 / 100000 : ℝ) < 1
      norm_num
  · norm_num

/-- C5 amended: `set_product_enrichment(x)` succeeds exactly when
`0 ≤ x ≤ 1` (closed endpoints) and `x > xf[3]`, and fails with `ValueError`
otherwise; `set_tails_enrichment(x)` succeeds exactly when `0 ≤ x ≤ 1` and
either `x < xf[3]` or the stored feed vector is identically zero, failing
with `ValueError` otherwise; on success both clear `uptodate`. -/
theorem set_assay_spec (s : MisoState) (x : ℝ) :
    ((∃ s', set_product_enrichment s x = .ok s') ↔
      (0 ≤ x ∧ x ≤ 1 ∧ s.xf 3 < x)) ∧
    ((∃ s', set_tails_enrichment s x = .ok s') ↔
      (0 ≤ x ∧ x ≤ 1 ∧ (x < s.xf 3 ∨ ∀ i, s.xf i = 0))) ∧
    (¬ (0 ≤ x ∧ x ≤ 1 ∧ s.xf 3 < x) →
      set_product_enrichment s x = .error .valueError) ∧
    (¬ (0 ≤ x ∧ x ≤ 1 ∧ (x < s.xf 3 ∨ ∀ i, s.xf i = 0)) →
      set_tails_enrichment s x = .error .valueError) ∧
    (∀ s', set_product_enrichment s x = .ok s' → s'.uptodate = false) ∧
    (∀ s', set_tails_enrichment s x = .ok s' → s'.uptodate = false) := by
  have hp : ¬ (x < 0 ∨ x > 1 ∨ x ≤ s.xf 3) ↔ (0 ≤ x ∧ x ≤ 1 ∧ s.xf 3 < x) := by
    push_neg
    rfl
  have ht : (¬ (x < 0 ∨ x > 1) ∧ ¬ (x ≥ s.xf 3 ∧ ∃ i, s.xf i ≠ 0)) ↔
      (0 ≤ x ∧ x ≤ 1 ∧ (x < s.xf 3 ∨ ∀ i, s.xf i = 0)) := by
    constructor
    · rintro ⟨hr, hord⟩
      push_neg at hr hord
      refine ⟨hr.1, hr.2, ?_⟩
      by_cases hlt : x < s.xf 3
      · exact Or.inl hlt
      · exact Or.inr (hord (not_lt.mp hlt))
    · rintro ⟨h0, h1x, hc⟩
      refine ⟨by push_neg; exact ⟨h0, h1x⟩, ?_⟩
      rintro ⟨hge, i, hne⟩
      rcases hc with hlt | hzero
      · exact absurd hge (not_le.mpr hlt)
      · exact hne (hzero i)
  refine ⟨?_, ?_, ?_, ?_, ?_, ?_⟩
  · unfold set_product_enrichment
    split
    · rename_i hcond
      constructor
      · rintro ⟨s', hs'⟩
        exact Except.noConfusion hs'
      · intro hok
        exact absurd hcond (hp.mpr hok)
    · rename_i hcond
      exact ⟨fun _ => hp.mp hcond, fun _ => ⟨_, rfl⟩⟩
  · unfold set_tails_enrichment
    split
    · rename_i hcond
      constructor
      · rintro ⟨s', hs'⟩
        exact Except.noConfusion hs'
      · intro hok
        exact absurd hcond (by rw [← ht] at hok; exact hok.1)
    · rename_i hc1
      split
      · rename_i hc2
        constructor
        · rintro ⟨s', hs'⟩
          exact Except.noConfusion hs'
        · intro hok
          exact absurd hc2 (by rw [← ht] at hok; exact hok.2)
      · rename_i hc2
        constructor
        · intro _
          exact ht.mp ⟨hc1, hc2⟩
        · intro _
          exact ⟨_, rfl⟩
  · intro hbad
    unfold set_product_enrichment
    rw [if_pos (by by_contra hc; exact hbad (hp.mp hc))]
  · intro hbad
    unfold set_tails_enrichment
    by_cases hc1 : x < 0 ∨ x > 1
    · rw [if_pos hc1]
    · rw [if_neg hc1, if_pos]
      by_contra hc2
      exact hbad (ht.mp ⟨hc1, hc2⟩)
  · intro s' hs'
    unfold set_product_enrichment at hs'
    split at hs'
    · exact Except.noConfusion hs'
    · cases hs'
      rfl
  · intro s' hs'
    unfold set_tails_enrichment at hs'
    split at hs'
    · exact Except.noConfusion hs'
    · split at hs'
      · exact Except.noConfusion hs'
      · cases hs'
        rfl

/-- Witness for C5 (amended): `set_product_enrichment(0.5)` on the
natural-uranium feed succeeds and clears `uptodate`. -/
theorem set_assay_spec_witness :
    ∃ s', set_product_enrichment natFeedState (1 / 2) = .ok s' ∧
      s'.uptodate = false := by
  obtain ⟨s', hs'⟩ := (set_assay_spec natFeedState (1 / 2)).1.mpr
    ⟨by norm_num, by norm_num, by show natFeedState.xf 3 < 1 / 2; norm_num [natFeedState]⟩
  exact ⟨s', hs', ((set_assay_spec natFeedState (1 / 2)).2.2.2.2.1) s' hs'⟩

/-- A session state in the solved configuration: `uptodate = true` (as after
a successful staging solve). -/
def solvedState : MisoState := { natFeedState with uptodate := true }

/-- C6 evidence: `set_alpha` contains no assignment to `uptodate`, so calling
it on a solved session leaves `uptodate = true` — a later solve reuses the
cached staging computed for the old separation factors. -/
theorem set_alpha_leaves_uptodate :
    (set_alpha solvedState (3 / 2)).uptodate = true ∧
    (∀ s a, (set_alpha s a).uptodate = s.uptodate) :=
  ⟨rfl, fun _ _ => rfl⟩

/-- C7 counterexample: `check_input` with the finite positive feed bound
`1e300` and both other bounds unbounded raises `ValueError`, because the
code's "unbounded" test is the threshold `> 1e298`, not `== inf`; so
"exactly one bound finite — including any finite positive value — is
accepted" fails. -/
theorem check_input_counterexample :
    check_input (ExtR.fin 1e300) ExtR.inf ExtR.inf = .error .valueError ∧
    ExtR.fin 1e300 ≠ ExtR.inf ∧ ¬ ExtR.le ExtR.inf (ExtR.fin 0) := by
  refine ⟨?_, fun h => ExtR.noConfusion h, ExtR.not_inf_le_fin 0⟩
  unfold check_input
  rw [if_pos]
  exact ⟨trivial, by show (1e298 : ℝ) < 1e300; norm_num, trivial⟩

/-- C7 amended: `check_input(feed_qty, product_qty, max_swu)` fails exactly
when `max_swu ≤ 0` (IEEE comparison) or all three bounds exceed the threshold
`1e298` (the code's notion of "unbounded"); in particular a configuration
with exactly one bound finite and at most `1e298` (positive if it is the SWU
bound) is accepted, and leaving two of the three unbounded is not itself
rejected. -/
theorem check_input_spec (feed_qty product_qty max_swu : ExtR) :
    (check_input feed_qty product_qty max_swu = .ok () ↔
      (¬ (ExtR.lt (.fin 1e298) max_swu ∧ ExtR.lt (.fin 1e298) feed_qty ∧
          ExtR.lt (.fin 1e298) product_qty) ∧
        ¬ ExtR.le max_swu (.fin 0))) ∧
    (∀ F : ℝ, 0 < F → F ≤ 1e298 →
      check_input (.fin F) .inf .inf = .ok () ∧
      check_input .inf (.fin F) .inf = .ok () ∧
      check_input .inf .inf (.fin F) = .ok ()) := by
  constructor
  · unfold check_input
    split
    · rename_i hc
      constructor
      · intro h
        exact Except.noConfusion h
      · rintro ⟨hnc, -⟩
        exact absurd hc hnc
    · rename_i hc
      split
      · rename_i hle
        constructor
        · intro h
          exact Except.noConfusion h
        · rintro ⟨-, hnle⟩
          exact absurd hle hnle
      · rename_i hle
        exact ⟨fun _ => ⟨hc, hle⟩, fun _ => rfl⟩
  · intro F hF0 hFle
    have hnotlt : ¬ ExtR.lt (.fin 1e298) (.fin F) := by
      simp only [ExtR.fin_lt_fin, not_lt]
      exact hFle
    refine ⟨?_, ?_, ?_⟩
    · unfold check_input
      rw [if_neg (fun hc => hnotlt hc.2.1), if_neg (ExtR.not_inf_le_fin 0)]
    · unfold check_input
      rw [if_neg (fun hc => hnotlt hc.2.2), if_neg (ExtR.not_inf_le_fin 0)]
    · unfold check_input
      rw [if_neg (fun hc => hnotlt hc.1), if_neg]
      simp only [ExtR.fin_le_fin, not_le]
      exact hF0

/-- Witness for C7 (amended): the single finite bound 1000 is accepted in
each of the three positions. -/
theorem check_input_spec_witness :
    check_input (.fin 1000) .inf .inf = .ok () ∧
    check_input .inf (.fin 1000) .inf = .ok () ∧
    check_input .inf .inf (.fin 1000) = .ok () :=
  (check_input_spec ExtR.inf ExtR.inf ExtR.inf).2 1000 (by norm_num) (by norm_num)

/-- The spec-side per-isotope mass: atomic mass plus the hexafluoride ligand
mass `6 · 19`. -/
def specIsotopeMass : Fin 6 → ℝ :=
  fun i => ![(232 : ℝ), 233, 234, 235, 236, 238] i + 6 * 19

/-- C8: `set_alpha(alpha_235)` sets, for the centrifuge process,
`alpha[i] = 1 + (2·M* − m[3] − m[i])·(alpha_235 − 1)/3` with `M* = 350.5` and
`m[i]` the isotope mass plus the hexafluoride ligand mass; for the diffusion
process, `alpha[i] = sqrt((2·M* − m[3])/m[i])` independently of `alpha_235`;
and in both cases `alpha_star[i] = alpha[i]/sqrt(alpha[3])`. -/
theorem set_alpha_spec (s : MisoState) (alpha_235 : ℝ) (hm : s.mstar = 350.5) :
    (s.process = "centrifuge" → ∀ i, (set_alpha s alpha_235).alpha i =
      1 + (2 * 350.5 - specIsotopeMass 3 - specIsotopeMass i) * (alpha_235 - 1) / 3) ∧
    (s.process = "diffusion" → ∀ i, (set_alpha s alpha_235).alpha i =
      Real.sqrt ((2 * 350.5 - specIsotopeMass 3) / specIsotopeMass i)) ∧
    (∀ i, (set_alpha s alpha_235).alpha_star i =
      (set_alpha s alpha_235).alpha i / Real.sqrt ((set_alpha s alpha_235).alpha 3)) := by
  have hiso : ∀ i, ISOTOPES i = specIsotopeMass i := fun _ => rfl
  have hsqrt : ∀ y : ℝ, y ^ (0.5 : ℝ) = Real.sqrt y := by
    intro y
    rw [show (0.5 : ℝ) = 1 / 2 by norm_num, ← Real.sqrt_eq_rpow]
  refine ⟨?_, ?_, ?_⟩
  · intro hc i
    unfold set_alpha
    dsimp only
    rw [if_neg (show ¬ s.process = "diffusion" by rw [hc]; decide), if_pos hc, hm]
    rfl
  · intro hd i
    unfold set_alpha
    dsimp only
    rw [if_pos hd, hm, hsqrt]
    rfl
  · intro i
    rw [← hsqrt]
    rfl

/-- Witness for C8 on a centrifuge-process state with the module reference
mass. -/
theorem set_alpha_spec_witness :
    (set_alpha witnessState (7 / 5)).alpha 3 =
      1 + (2 * 350.5 - specIsotopeMass 3 - specIsotopeMass 3) * (7 / 5 - 1) / 3 :=
  (set_alpha_spec witnessState (7 / 5) rfl).1 rfl 3

/-- C9: a successful `set_feed_composition` with a mapping writes only the
entries whose nuclides are present in the mapping; every absent entry keeps
its previous value and enters the renormalization, so a second call with a
partial mapping does not reset the omitted isotopes to zero. -/
theorem set_feed_composition_partial_map (s : MisoState)
    (m : List (String × ℝ)) (s' : MisoState)
    (h : set_feed_composition s (.map m) = .ok s') :
    (∀ i, s'.xf i = mergedFeed s m i / ∑ j, mergedFeed s m j) ∧
    (∀ i, lookupNuclide m (allowedNuclide i) = none →
      s'.xf i = s.xf i / ∑ j, mergedFeed s m j) := by
  simp only [set_feed_composition] at h
  split at h
  · exact Except.noConfusion h
  · split at h
    · exact Except.noConfusion h
    · split at h
      · exact Except.noConfusion h
      · cases h
        refine ⟨fun i => rfl, fun i hnone => ?_⟩
        show mergedFeed s m i / ∑ j, mergedFeed s m j = _
        unfold mergedFeed
        rw [hnone]

/-- The partial feed mapping `{U-235: 1/2}` used as witness input for C9. -/
def partialFeedMap : List (String × ℝ) := [("922350000", 1 / 2)]

/-- Witness for C9: updating `witnessState` with the partial mapping
`{U-235: 1/2}` succeeds and leaves the (absent) U-232 entry at its previous
value up to the common renormalization. -/
theorem set_feed_composition_partial_map_witness :
    ∃ s', set_feed_composition witnessState (.map partialFeedMap) = .ok s' ∧
      s'.xf 0 = witnessState.xf 0 / ∑ j, mergedFeed witnessState partialFeedMap j := by
  have heq : set_feed_composition witnessState (.map partialFeedMap) =
      .ok { witnessState with
            uptodate := false,
            xf := fun i => mergedFeed witnessState partialFeedMap i /
              (∑ j, mergedFeed witnessState partialFeedMap j) } := by
    simp only [set_feed_composition]
    rw [if_neg (by decide), if_neg (by decide), if_neg]
    rintro ⟨i, val, hl, hbad⟩
    fin_cases i
    · exact Option.noConfusion hl
    · exact Option.noConfusion hl
    · exact Option.noConfusion hl
    · injection hl with hv
      rw [← hv] at hbad
      rcases hbad with hb | hb <;> norm_num at hb
    · exact Option.noConfusion hl
    · exact Option.noConfusion hl
  exact ⟨_, heq, (set_feed_composition_partial_map witnessState partialFeedMap _ heq).2
    0 rfl⟩

/-- C10: the key-isotope presence check of `set_feed_composition` applies
only to mapping inputs — a 6-element vector with every entry in `[0, 1)` and
positive sum is accepted even when its U-235 entry (index 3) is zero; the
vector path never raises the missing-key-isotope error. -/
theorem set_feed_composition_vec_accepts (s : MisoState) (v : List ℝ)
    (hlen : v.length = 6) (hrange : ∀ x ∈ v, 0 ≤ x ∧ x < 1) (hsum : 0 < v.sum) :
    ∃ s', set_feed_composition s (.vec v) = .ok s' := by
  simp only [set_feed_composition]
  rw [if_neg, if_neg]
  · exact ⟨_, rfl⟩
  · rintro (⟨x, hx, hx0⟩ | ⟨x, hx, hx1⟩)
    · exact absurd hx0 (not_lt.mpr (hrange x hx).1)
    · exact absurd hx1 (not_le.mpr (hrange x hx).2)
  · intro hne
    exact hne (by rw [hlen]; rfl)

/-- The 6-element feed vector with zero U-235 entry used as witness input
for C10; its entries lie in `[0, 1)` and sum to 1. -/
def zeroKeyFeedVec : List ℝ := [1 / 2, 2 / 5, 1 / 20, 0, 1 / 40, 1 / 40]

/-- Witness for C10: the vector `zeroKeyFeedVec`, whose U-235 entry (index 3)
is zero, is accepted by the vector path of `set_feed_composition`. -/
theorem set_feed_composition_vec_accepts_witness :
    zeroKeyFeedVec.getD 3 1 = 0 ∧
    ∃ s', set_feed_composition witnessState (.vec zeroKeyFeedVec) = .ok s' := by
  constructor
  · norm_num [zeroKeyFeedVec]
  · refine set_feed_composition_vec_accepts witnessState zeroKeyFeedVec rfl ?_ ?_
    · intro x hx
      rcases List.mem_cons.mp hx with h | hx
      · rw [h]; norm_num
      rcases List.mem_cons.mp hx with h | hx
      · rw [h]; norm_num
      rcases List.mem_cons.mp hx with h | hx
      · rw [h]; norm_num
      rcases List.mem_cons.mp hx with h | hx
      · rw [h]; norm_num
      rcases List.mem_cons.mp hx with h | hx
      · rw [h]; norm_num
      rcases List.mem_cons.mp hx with h | hx
      · rw [h]; norm_num
      · exact absurd hx (List.not_mem_nil x)
    · show (0 : ℝ) < zeroKeyFeedVec.sum
      norm_num [zeroKeyFeedVec]

/-- With a normalized feed and non-vanishing per-isotope denominators, the
product-per-unit-feed and tails-per-unit-feed ratios of the flow solver add
up to 1. -/
theorem flow_ratio_sum (s : MisoState) (hxf : ∑ i, s.xf i = 1)
    (hes : ∀ i, flowE s i + flowS s i ≠ 0) :
    flowESum s + flowSSum s = 1 := by
  unfold flowESum flowSSum
  rw [← Finset.sum_add_distrib, ← hxf]
  refine Finset.sum_congr rfl (fun i _ => ?_)
  rw [div_add_div_same, ← add_mul, mul_comm, mul_div_assoc, div_self (hes i), mul_one]

/-- C3: for a session with normalized feed (`Σ xf = 1`), non-vanishing
per-isotope coefficient sums, and well-formed binding data (whichever branch
is selected has a finite bound, with the corresponding nonzero denominator),
the mass balance `f = p + t` holds exactly after `calculate_flows()` in each
of the three binding branches: feed-bound, product-bound, and SWU-capped. -/
theorem calculate_flows_mass_balance (s : MisoState)
    (hxf : ∑ i, s.xf i = 1)
    (hes : ∀ i, flowE s i + flowS s i ≠ 0)
    (hesum : flowESum s ≠ 0)
    (hf : ExtR.lt (s.user_f * ExtR.fin (flowESum s)) s.user_p →
      ∃ F, s.user_f = ExtR.fin F)
    (hp : ¬ ExtR.lt (s.user_f * ExtR.fin (flowESum s)) s.user_p →
      ∃ P, s.user_p = ExtR.fin P)
    (hswu : ExtR.lt s.user_swu (get_swu (flowsPhase1 s)) →
      (∃ S, s.user_swu = ExtR.fin S) ∧ flowDenom s ≠ 0) :
    (calculate_flows s).f = (calculate_flows s).p + (calculate_flows s).t := by
  have hsum := flow_ratio_sum s hxf hes
  have hphase : (flowsPhase1 s).f = (flowsPhase1 s).p + (flowsPhase1 s).t := by
    unfold flowsPhase1
    dsimp only
    split
    · rename_i hlt
      obtain ⟨F, hF⟩ := hf hlt
      rw [hF]
      simp only [ExtR.fin_mul_fin, ExtR.fin_add_fin, ExtR.fin.injEq]
      rw [← mul_add, hsum, mul_one]
    · rename_i hlt
      obtain ⟨P, hP⟩ := hp hlt
      rw [hP, ExtR.fin_div_fin _ hesum]
      simp only [ExtR.fin_mul_fin, ExtR.fin_add_fin, ExtR.fin.injEq]
      have hss : flowSSum s = 1 - flowESum s := by linarith
      rw [hss, mul_sub, mul_one, div_mul_cancel₀ _ hesum]
      ring
  unfold calculate_flows
  dsimp only
  split
  · rename_i hcap
    rw [flowsPhase1_user_swu] at hcap
    obtain ⟨⟨S, hS⟩, hD⟩ := hswu hcap
    rw [flowsPhase1_user_swu, hS, ExtR.fin_div_fin _ hD]
    simp only [ExtR.fin_mul_fin, ExtR.fin_add_fin, ExtR.fin.injEq]
    rw [← mul_add, hsum, mul_one]
  · exact hphase

/-- Witness for C3 at the feed-bound session `witnessState`
(`user_f = 1000`, `user_p = user_swu = ∞`, `alpha_star = 2`, `n_e = 1`,
`n_s = 0`). -/
theorem calculate_flows_mass_balance_witness :
    (∑ i, witnessState.xf i = 1) ∧
    (calculate_flows witnessState).f =
      (calculate_flows witnessState).p + (calculate_flows witnessState).t := by
  have hrp : ∀ x : ℝ, 0 < x → x ^ (-1 : ℝ) = 1 / x := by
    intro x hx
    rw [show (-1 : ℝ) = ((-1 : ℤ) : ℝ) by norm_num, Real.rpow_intCast]
    simp
  have h2neg : (2 : ℝ) ^ (-ExtR.toReal witnessState.n_e) = 1 / 2 := by
    show (2 : ℝ) ^ (-ExtR.toReal (.fin 1)) = 1 / 2
    rw [ExtR.toReal_fin]
    exact hrp 2 (by norm_num)
  have h2pos : (2 : ℝ) ^ (ExtR.toReal witnessState.n_s + 1) = 2 := by
    show (2 : ℝ) ^ (ExtR.toReal (.fin 0) + 1) = 2
    rw [ExtR.toReal_fin, zero_add, Real.rpow_one]
  have hE : ∀ i : Fin 6, flowE witnessState i = 1 := by
    intro i
    unfold flowE
    show (2 : ℝ) ^ (-1 : ℝ) / (1 - (2 : ℝ) ^ (-ExtR.toReal witnessState.n_e)) = 1
    rw [h2neg, hrp 2 (by norm_num)]
    norm_num
  have hS : ∀ i : Fin 6, flowS witnessState i = 1 / 2 := by
    intro i
    unfold flowS
    show (2 : ℝ) ^ (-1 : ℝ) / ((2 : ℝ) ^ (ExtR.toReal witnessState.n_s + 1) - 1) = 1 / 2
    rw [h2pos, hrp 2 (by norm_num)]
    norm_num
  have hxf : ∑ i, witnessState.xf i = 1 := by
    show ∑ _i : Fin 6, (1 / 6 : ℝ) = 1
    rw [Fin.sum_univ_six]
    norm_num
  have hesum : flowESum witnessState = 2 / 3 := by
    unfold flowESum
    simp only [hE, hS]
    show ∑ _i : Fin 6, (1 : ℝ) * (1 / 6) / (1 + 1 / 2) = 2 / 3
    rw [Fin.sum_univ_six]
    norm_num
  refine ⟨hxf, calculate_flows_mass_balance witnessState hxf ?_ ?_ ?_ ?_ ?_⟩
  · intro i
    rw [hE, hS]
    norm_num
  · rw [hesum]
    norm_num
  · intro _
    exact ⟨1000, rfl⟩
  · intro hnlt
    apply absurd _ hnlt
    show ExtR.lt (ExtR.fin 1000 * ExtR.fin (flowESum witnessState)) ExtR.inf
    rw [ExtR.fin_mul_fin]
    exact ExtR.fin_lt_inf _
  · intro hcap
    rw [show witnessState.user_swu = ExtR.inf from rfl] at hcap
    exact absurd hcap (ExtR.not_inf_lt _)

/-- Case analysis of one staging trial: either the loop continues with
`uptodate` unchanged, or it converges with `uptodate` set, or it diagnoses
infeasibility — having already set `uptodate` before raising. -/
theorem stagingTrial_cases (minimize : Minimizer) (ub : ℝ) (g : ℝ × ℝ)
    (s : MisoState) :
    (∃ s', stagingTrial minimize ub g s = (s', none) ∧
      s'.uptodate = s.uptodate) ∨
    (∃ s' ne ns, stagingTrial minimize ub g s = (s', some (.converged ne ns)) ∧
      s'.uptodate = true) ∨
    (∃ s', stagingTrial minimize ub g s = (s', some .infeasible) ∧
      s'.uptodate = true) := by
  unfold stagingTrial
  dsimp only
  split
  · split
    · right; right
      refine ⟨_, rfl, ?_⟩
      simp
    · right; left
      exact ⟨_, _, _, rfl, rfl⟩
  · left
    refine ⟨_, rfl, ?_⟩
    simp

/-- Propagation of `uptodate` through the initial-guess loop: an exhausted
grid (optimizer failure) leaves `uptodate` as it was on entry, and the
infeasibility exit leaves it `true`. -/
theorem stagingSearch_uptodate (minimize : Minimizer) (ub : ℝ)
    (gs : List (ℝ × ℝ)) (s : MisoState) :
    ((stagingSearch minimize ub gs s).2 = .optimizerFailure →
      (stagingSearch minimize ub gs s).1.uptodate = s.uptodate) ∧
    ((stagingSearch minimize ub gs s).2 = .infeasible →
      (stagingSearch minimize ub gs s).1.uptodate = true) := by
  induction gs generalizing s with
  | nil => exact ⟨fun _ => rfl, fun h => StagingOutcome.noConfusion h⟩
  | cons g rest ih =>
      rcases stagingTrial_cases minimize ub g s with
        ⟨s', heq, hup⟩ | ⟨s', ne, ns, heq, hup⟩ | ⟨s', heq, hup⟩
      · have hred : stagingSearch minimize ub (g :: rest) s =
            stagingSearch minimize ub rest s' := by
          have hdef : stagingSearch minimize ub (g :: rest) s =
              match stagingTrial minimize ub g s with
              | (s2, some out) => (s2, out)
              | (s2, none) => stagingSearch minimize ub rest s2 := rfl
          rw [hdef, heq]
        rw [hred]
        obtain ⟨ih1, ih2⟩ := ih s'
        exact ⟨fun h => (ih1 h).trans hup, ih2⟩
      · have hred : stagingSearch minimize ub (g :: rest) s =
            (s', .converged ne ns) := by
          have hdef : stagingSearch minimize ub (g :: rest) s =
              match stagingTrial minimize ub g s with
              | (s2, some out) => (s2, out)
              | (s2, none) => stagingSearch minimize ub rest s2 := rfl
          rw [hdef, heq]
        rw [hred]
        exact ⟨fun h => StagingOutcome.noConfusion h,
          fun h => StagingOutcome.noConfusion h⟩
      · have hred : stagingSearch minimize ub (g :: rest) s = (s', .infeasible) := by
          have hdef : stagingSearch minimize ub (g :: rest) s =
              match stagingTrial minimize ub g s with
              | (s2, some out) => (s2, out)
              | (s2, none) => stagingSearch minimize ub rest s2 := rfl
          rw [hdef, heq]
        rw [hred]
        exact ⟨fun h => StagingOutcome.noConfusion h, fun _ => hup⟩

/-- C1 amended: when `calculate_enrichment` raises the optimizer-failure
error, `uptodate` is false after the call; but when it raises the
infeasibility error, `uptodate` is true after the call — it was set upon the
convergence that preceded the infeasibility diagnosis (and the diagnostic
`pprint` path relies on that cached state). -/
theorem calculate_enrichment_error_uptodate (minimize : Minimizer) (s : MisoState) :
    ((calculate_enrichment minimize s).2 = .optimizerFailure →
      (calculate_enrichment minimize s).1.uptodate = false) ∧
    ((calculate_enrichment minimize s).2 = .infeasible →
      (calculate_enrichment minimize s).1.uptodate = true) := by
  unfold calculate_enrichment calculate_staging
  split
  · exact ⟨fun h => StagingOutcome.noConfusion h,
      fun h => StagingOutcome.noConfusion h⟩
  · rename_i hup
    have hfalse : s.uptodate = false := by
      cases hcase : s.uptodate
      · rfl
      · exact absurd hcase hup
    split
    · obtain ⟨ih1, ih2⟩ := stagingSearch_uptodate minimize 7000
        (stagingGrid [100, 500, 1000, 5000] [500, 1000, 5000]) s
      exact ⟨fun h => (ih1 h).trans hfalse, ih2⟩
    · split
      · obtain ⟨ih1, ih2⟩ := stagingSearch_uptodate minimize 200
          (stagingGrid [1, 5, 10, 50] [5, 10, 50]) s
        exact ⟨fun h => (ih1 h).trans hfalse, ih2⟩
      · exact ⟨fun h => StagingOutcome.noConfusion h,
          fun h => StagingOutcome.noConfusion h⟩

/-- A minimizer model on which every call reports failure. -/
def failMinimizer : Minimizer := fun _ _ _ =>
  { x1 := 0, x2 := 0, lastEval1 := 0, lastEval2 := 0, success := false, message := "" }

/-- Under the always-failing minimizer the whole grid is exhausted and the
staging search exits with the optimizer-failure error. -/
theorem stagingSearch_failMinimizer (ub : ℝ) (gs : List (ℝ × ℝ)) (s : MisoState) :
    (stagingSearch failMinimizer ub gs s).2 = .optimizerFailure := by
  induction gs generalizing s with
  | nil => rfl
  | cons g rest ih =>
      unfold stagingSearch stagingTrial
      dsimp only [failMinimizer]
      rw [if_neg (by rintro ⟨hsucc, -⟩; exact Bool.noConfusion hsucc)]
      exact ih _

/-- Witness for C1 (amended), optimizer-failure side: with the always-failing
minimizer on a centrifuge session, the call errors out with
`uptodate = false`. -/
theorem calculate_enrichment_error_uptodate_witness :
    (calculate_enrichment failMinimizer witnessState).1.uptodate = false := by
  apply (calculate_enrichment_error_uptodate failMinimizer witnessState).1
  show (calculate_staging failMinimizer witnessState).2 = .optimizerFailure
  unfold calculate_staging
  rw [if_neg (by decide), if_neg (by decide),
      if_pos (show witnessState.process = "centrifuge" from rfl)]
  exact stagingSearch_failMinimizer 200 _ _

/-- A minimizer model that reports success at `x = (190, 1)` (within 10% of
the centrifuge upper bound 200, which triggers the infeasibility diagnosis)
after last evaluating the objective at `(1, 0)`. -/
def infMinimizer : Minimizer := fun _ _ _ =>
  { x1 := 190, x2 := 1, lastEval1 := 1, lastEval2 := 0, success := true, message := "" }

/-- C1 counterexample: a concrete run of `calculate_enrichment` that raises
the infeasibility error and nevertheless ends with `uptodate = true` — the
flag is set at the converged iterate before the infeasibility check raises,
so "uptodate is false after an Infeasible error" fails on the code. -/
theorem staging_infeasible_counterexample :
    (calculate_enrichment infMinimizer witnessState).2 = .infeasible ∧
    (calculate_enrichment infMinimizer witnessState).1.uptodate = true := by
  have hE1 : ∀ i : Fin 6, concE witnessState 1 i = 1 := by
    intro i
    unfold concE
    show 1 / (2 : ℝ) / (1 - (2 : ℝ) ^ (-(1 : ℝ))) = 1
    rw [Real.rpow_neg_one]
    norm_num
  have hS1 : ∀ i : Fin 6, concS witnessState 0 i = 1 / 2 := by
    intro i
    unfold concS
    show 1 / (2 : ℝ) / ((2 : ℝ) ^ ((0 : ℝ) + 1) - 1) = 1 / 2
    rw [zero_add, Real.rpow_one]
    norm_num
  have hxp3 : ((calculate_concentrations witnessState (some 1, some 0)).1).xp 3 = 1 / 6 := by
    show concE witnessState 1 3 * witnessState.xf 3 /
        ((concE witnessState 1 3 + concS witnessState 0 3) *
          ∑ j, concE witnessState 1 j * witnessState.xf j /
            (concE witnessState 1 j + concS witnessState 0 j)) = 1 / 6
    simp only [hE1, hS1]
    show (1 : ℝ) * (1 / 6) / ((1 + 1 / 2) * ∑ _j : Fin 6, (1 : ℝ) * (1 / 6) / (1 + 1 / 2)) = 1 / 6
    rw [Fin.sum_univ_six]
    norm_num
  have hxt3 : ((calculate_concentrations witnessState (some 1, some 0)).1).xt 3 = 1 / 6 := by
    show concS witnessState 0 3 * witnessState.xf 3 /
        ((concE witnessState 1 3 + concS witnessState 0 3) *
          ∑ j, concS witnessState 0 j * witnessState.xf j /
            (concE witnessState 1 j + concS witnessState 0 j)) = 1 / 6
    simp only [hE1, hS1]
    show (1 / 2 : ℝ) * (1 / 6) /
        ((1 + 1 / 2) * ∑ _j : Fin 6, (1 / 2 : ℝ) * (1 / 6) / (1 + 1 / 2)) = 1 / 6
    rw [Fin.sum_univ_six]
    norm_num
  have hδ : difference_concentration
      ((calculate_concentrations witnessState (some 1, some 0)).1) = 0 := by
    unfold difference_concentration
    rw [hxp3, hxt3,
      show ((calculate_concentrations witnessState (some 1, some 0)).1).user_xp =
        (1 / 6 : ℝ) from rfl,
      show ((calculate_concentrations witnessState (some 1, some 0)).1).user_xt =
        (1 / 6 : ℝ) from rfl]
    rw [show (((1 / 6 - 1 / 6) / (1 / 6) : ℝ) ^ 2 +
      ((1 / 6 - 1 / 6) / (1 / 6) : ℝ) ^ 2) = 0 by norm_num]
    exact Real.zero_rpow (by norm_num)
  have htr : ∃ s', stagingTrial infMinimizer 200 (5, 1) witnessState =
      (s', some .infeasible) ∧ s'.uptodate = true := by
    unfold stagingTrial
    dsimp only [infMinimizer]
    rw [if_pos ⟨rfl, by rw [hδ]; norm_num⟩, if_pos (Or.inr (by norm_num))]
    exact ⟨_, rfl, by simp⟩
  obtain ⟨s', htr', hup⟩ := htr
  have hgrid : stagingGrid [1, 5, 10, 50] [5, 10, 50] =
      (5, 1) :: [(10, 1), (50, 1), (5, 5), (10, 5), (50, 5), (5, 10), (10, 10),
        (50, 10), (5, 50), (10, 50), (50, 50)] := rfl
  have hred : calculate_enrichment infMinimizer witnessState = (s', .infeasible) := by
    show calculate_staging infMinimizer witnessState = _
    unfold calculate_staging
    rw [if_neg (by decide), if_neg (by decide),
      if_pos (show witnessState.process = "centrifuge" from rfl), hgrid]
    have hdef : stagingSearch infMinimizer 200 ((5, 1) :: [(10, 1), (50, 1), (5, 5),
        (10, 5), (50, 5), (5, 10), (10, 10), (50, 10), (5, 50), (10, 50), (50, 50)])
        witnessState =
        match stagingTrial infMinimizer 200 (5, 1) witnessState with
        | (s2, some out) => (s2, out)
        | (s2, none) => stagingSearch infMinimizer 200 [(10, 1), (50, 1), (5, 5),
            (10, 5), (50, 5), (5, 10), (10, 10), (50, 10), (5, 50), (10, 50),
            (50, 50)] s2 := rfl
    rw [hdef, htr']
  rw [hred]
  exact ⟨rfl, hup⟩

end Miso

end
